import Mathlib

/-!
Verification of the adaptive ingest and dynamic topology engine of the
video-graphic-overlay repository.  The Go sources under `internal/pipeline`
are shallowly embedded below:

* `hls_parser.go`  — manifest resolver (`ParseHLSMasterPlaylist`, the
  `Select*` policies);
* `pipeline.go`    — graph supervisor (`Start`/`Stop`), source-strategy
  dispatch (`createSourceElement`) and the pad-added callbacks;
* `errors.go`      — recovery manager (`ErrorHandler.HandleError`,
  `RecoveryManager.attemptRestart`);
* `hls.go`         — `NewHLSInput` / `validateHLSURL`;
* the playbin3 variant of the pipeline (fully automatic strategy) with its
  `createPlaybin3Source` manifest-resolution step.

Strings are processed through explicit `List Char` helpers mirroring the Go
standard-library functions used by the sources (`strings.TrimSpace`,
`strings.Split`, `strings.SplitN`, `strings.HasPrefix`, `strings.HasSuffix`,
`strings.ToLower`, `strings.TrimPrefix`, `strconv.Atoi` and the `\d+`
extraction of `parseBandwidth`).  Wall-clock sleeps, logging and the GStreamer
runtime itself are effects outside the embedding; where a function's decision
depends on a runtime answer (an HTTP response, a parsed URL, element-factory
availability, negotiated caps) that answer is passed as an explicit argument.
-/

instance {ε α : Type} [DecidableEq ε] [DecidableEq α] :
    DecidableEq (Except ε α) := fun x y =>
  match x, y with
  | .ok a, .ok b =>
    if h : a = b then .isTrue (congrArg Except.ok h)
    else .isFalse fun hh => h (Except.ok.inj hh)
  | .error a, .error b =>
    if h : a = b then .isTrue (congrArg Except.error h)
    else .isFalse fun hh => h (Except.error.inj hh)
  | .ok _, .error _ => .isFalse fun hh => Except.noConfusion hh
  | .error _, .ok _ => .isFalse fun hh => Except.noConfusion hh

namespace VGO

/-! ## Go string helpers (over `List Char`) -/

/-- `strings.HasPrefix` on character lists. -/
def listStarts : List Char → List Char → Bool
  | [], _ => true
  | _ :: _, [] => false
  | p :: ps, c :: cs => p == c && listStarts ps cs

/-- `strings.HasSuffix` on character lists. -/
def listEnds (suf s : List Char) : Bool :=
  listStarts suf.reverse s.reverse

/-- Whitespace as trimmed by `strings.TrimSpace` (ASCII fragment). -/
def goIsSpace (c : Char) : Bool :=
  c == ' ' || c == '\t' || c == '\n' || c == '\r'

/-- `strings.TrimSpace`. -/
def goTrimSpace (s : String) : String :=
  ⟨((s.data.dropWhile goIsSpace).reverse.dropWhile goIsSpace).reverse⟩

/-- `strings.HasPrefix`. -/
def goStarts (s pre : String) : Bool :=
  listStarts pre.data s.data

/-- `strings.HasSuffix`. -/
def goEnds (s suf : String) : Bool :=
  listEnds suf.data s.data

/-- `strings.TrimPrefix` (removes one copy of the prefix when present). -/
def goTrimPre (s pre : String) : String :=
  if goStarts s pre then ⟨s.data.drop pre.data.length⟩ else s

/-- `strings.ToLower` (ASCII). -/
def goToLower (s : String) : String :=
  ⟨s.data.map Char.toLower⟩

/-- `strings.Split` with a one-character separator (all separators used by the
sources — `/`, `x`, `,` — are single characters). -/
def splitChar (sep : Char) : List Char → List (List Char)
  | [] => [[]]
  | c :: rest =>
    match splitChar sep rest with
    | [] => [[c]]
    | g :: gs => if c == sep then [] :: g :: gs else (c :: g) :: gs

/-- `strings.Split` on strings. -/
def goSplit (s : String) (sep : Char) : List String :=
  (splitChar sep s.data).map fun cs => ⟨cs⟩

/-- `strings.Join` with a one-character separator. -/
def goJoin (parts : List String) (sep : Char) : String :=
  ⟨List.intercalate [sep] (parts.map String.data)⟩

/-- `strings.SplitN(s, sep, 2)`: break at the first separator only. -/
def goSplitN2 (s : String) (sep : Char) : List String :=
  let a := s.data.takeWhile (fun c => c ≠ sep)
  let b := s.data.dropWhile (fun c => c ≠ sep)
  match b with
  | [] => [⟨a⟩]
  | _ :: rest => [⟨a⟩, ⟨rest⟩]

/-- Value of a list of decimal digits. -/
def digitsVal : List Char → Nat → Nat
  | [], acc => acc
  | c :: cs, acc => digitsVal cs (acc * 10 + (c.toNat - '0'.toNat))

/-- `strconv.Atoi`: optional sign followed by at least one digit and nothing
else; overflow is ignored (the manifests' numbers are small). -/
def atoi? (s : String) : Option Int :=
  let core : List Char → Option Int := fun ds =>
    if ds = [] then none
    else if ds.all Char.isDigit then some (digitsVal ds 0) else none
  match s.data with
  | '-' :: rest => (core rest).map (fun n => -n)
  | '+' :: rest => core rest
  | ds => core ds

/-- The first maximal run of digits in a string (`regexp \d+`, first match),
or `none` when the string has no digit. -/
def firstDigitRun (s : String) : Option (List Char) :=
  let tail := s.data.dropWhile (fun c => ¬ c.isDigit)
  match tail.takeWhile Char.isDigit with
  | [] => none
  | run => some run

/-! ## `hls_parser.go` — data model and pure parsing helpers -/

/-- `HLSStream`: one variant from the master playlist.  The source stores
`FrameRate` as a `float64`; floating point is outside the embedding, so the
raw attribute string is kept instead (no claim inspects it). -/
structure HLSStream where
  url : String
  bandwidth : Int
  resolution : String
  width : Int
  height : Int
  codecs : String
  frameRateRaw : String
  averageBandwidth : Int
  deriving DecidableEq, Repr

/-- The zero value `HLSStream{}`. -/
def HLSStream.empty : HLSStream :=
  ⟨"", 0, "", 0, 0, "", "", 0⟩

/-- `HLSMasterPlaylist`. -/
structure HLSMasterPlaylist where
  streams : List HLSStream
  baseURL : String
  deriving DecidableEq, Repr

/-- `parseResolution`: "WxH" into width and height, `(0, 0)` on any
malformed token. -/
def parseResolution (resolution : String) : Int × Int :=
  let parts := goSplit resolution 'x'
  if parts.length ≠ 2 then (0, 0)
  else
    match atoi? (parts.get! 0), atoi? (parts.get! 1) with
    | some w, some h => (w, h)
    | _, _ => (0, 0)

/-- `parseBandwidth`: first run of digits anywhere in the value, else 0. -/
def parseBandwidth (bandwidth : String) : Int :=
  if bandwidth = "" then 0
  else
    match firstDigitRun bandwidth with
    | none => 0
    | some run => (digitsVal run 0 : Int)

/-- One iteration of the attribute loop inside `ParseHLSMasterPlaylist`
(the `switch key` over a `KEY=VALUE` fragment of the `#EXT-X-STREAM-INF:`
line). -/
def applyAttr (cur : HLSStream) (attr : String) : HLSStream :=
  let parts := goSplitN2 attr '='
  if h : parts.length = 2 then
    let key := goTrimSpace (parts.get ⟨0, by omega⟩)
    let value := goTrimSpace (parts.get ⟨1, by omega⟩)
    if key = "BANDWIDTH" then { cur with bandwidth := parseBandwidth value }
    else if key = "AVERAGE-BANDWIDTH" then
      { cur with averageBandwidth := parseBandwidth value }
    else if key = "RESOLUTION" then
      { cur with resolution := value,
                 width := (parseResolution value).1,
                 height := (parseResolution value).2 }
    else if key = "CODECS" then { cur with codecs := value }
    else if key = "FRAME-RATE" then { cur with frameRateRaw := value }
    else cur
  else cur

/-- Parsing of a `#EXT-X-STREAM-INF:` payload: fresh `HLSStream{}` updated by
every comma-separated attribute. -/
def parseStreamInf (info : String) : HLSStream :=
  (goSplit info ',').foldl applyAttr HLSStream.empty

/-- State of the scan loop of `ParseHLSMasterPlaylist`: the pending variant
(`currentStream`) and the emitted variants so far. -/
structure ParseState where
  current : HLSStream
  streams : List HLSStream
  deriving DecidableEq, Repr

/-- The body of the scan loop of `ParseHLSMasterPlaylist`, for one raw
line. -/
def processLine (baseURL : String) (st : ParseState) (rawLine : String) :
    ParseState :=
  let line := goTrimSpace rawLine
  if goStarts line "#EXT-X-STREAM-INF:" then
    { st with current := parseStreamInf (goTrimPre line "#EXT-X-STREAM-INF:") }
  else if goStarts line "http" || goStarts line "/" then
    if st.current.bandwidth > 0 then
      let url := if goStarts line "/" then baseURL ++ goTrimPre line "/"
                 else line
      let cur := { st.current with url := url }
      { current := cur, streams := st.streams ++ [cur] }
    else st
  else st

/-- The full scan loop. -/
def parseLines (baseURL : String) (lines : List String) : List HLSStream :=
  (lines.foldl (processLine baseURL) ⟨HLSStream.empty, []⟩).streams

/-- Base-URL extraction: everything up to the last `/` of the manifest
address, re-joined with a trailing `/`. -/
def baseURLOf (url : String) : String :=
  let urlParts := goSplit url '/'
  if urlParts.length > 0 then goJoin urlParts.dropLast '/' ++ "/" else ""

/-- Outcome of the HTTP GET performed by `ParseHLSMasterPlaylist`: either the
transport fails, or a status code and the body's lines arrive (`readErr`
models a `bufio.Scanner` error while streaming the body). -/
inductive FetchOutcome where
  | transportError
  | response (status : Nat) (lines : List String) (readErr : Bool)
  deriving DecidableEq, Repr

/-- Errors of `ParseHLSMasterPlaylist` (all are `fmt.Errorf` values in the
source; the constructors name the four return sites). -/
inductive HLSParseError where
  | fetchFailed
  | httpError (status : Nat)
  | readFailed
  | noStreams
  deriving DecidableEq, Repr

/-- `ParseHLSMasterPlaylist` over an explicit fetch outcome.  The source
errors when the transport fails, when the status differs from
`http.StatusOK` (200), when the body scanner reports an error, or when zero
variants were parsed. -/
def ParseHLSMasterPlaylist (url : String) (resp : FetchOutcome) :
    Except HLSParseError HLSMasterPlaylist :=
  match resp with
  | .transportError => .error .fetchFailed
  | .response status lines readErr =>
    if status ≠ 200 then .error (.httpError status)
    else
      let baseURL := baseURLOf url
      let streams := parseLines baseURL lines
      if readErr then .error .readFailed
      else if streams = [] then .error .noStreams
      else .ok ⟨streams, baseURL⟩

/-! ## `hls_parser.go` — selection policies

`sort.Slice` sorts in place with a strict comparator; its postcondition is
that the final order is sorted for that comparator.  The model realises the
sort with insertion sort over the relation "does not have to come later",
i.e. the negation of the flipped comparator, which is total and transitive
for the lexicographic comparators of the source. -/

/-- Resolution rank used by the quality policies. -/
def hlsRes (s : HLSStream) : Int := s.width * s.height

/-- The `less` closure of `SelectHighestQuality` / `ListStreams`. -/
def lessHighest (a b : HLSStream) : Bool :=
  if hlsRes a ≠ hlsRes b then hlsRes a > hlsRes b else a.bandwidth > b.bandwidth

/-- The `less` closure of `SelectLowestQuality`. -/
def lessLowest (a b : HLSStream) : Bool :=
  if hlsRes a ≠ hlsRes b then hlsRes a < hlsRes b else a.bandwidth < b.bandwidth

/-- The `less` closure of `SelectByBandwidth`. -/
def lessBandwidth (a b : HLSStream) : Bool :=
  a.bandwidth > b.bandwidth

/-- "`a` may precede `b`" for a strict comparator: `¬ less b a`. -/
def mayPrecede (less : HLSStream → HLSStream → Bool) :
    HLSStream → HLSStream → Prop :=
  fun a b => less b a = false

instance (less : HLSStream → HLSStream → Bool) :
    DecidableRel (mayPrecede less) := fun a b => by
  unfold mayPrecede; infer_instance

/-- `SelectHighestQuality`: sorts `h.Streams` in place, returns the head (or
`nil` for an empty set).  The pair returns the selected stream together with
the playlist as left behind by the in-place sort. -/
def SelectHighestQuality (h : HLSMasterPlaylist) :
    Option HLSStream × HLSMasterPlaylist :=
  if h.streams = [] then (none, h)
  else
    let sorted := List.insertionSort (mayPrecede lessHighest) h.streams
    (sorted.head?, { h with streams := sorted })

/-- `SelectLowestQuality`. -/
def SelectLowestQuality (h : HLSMasterPlaylist) :
    Option HLSStream × HLSMasterPlaylist :=
  if h.streams = [] then (none, h)
  else
    let sorted := List.insertionSort (mayPrecede lessLowest) h.streams
    (sorted.head?, { h with streams := sorted })

/-- `SelectByBandwidth`. -/
def SelectByBandwidth (h : HLSMasterPlaylist) :
    Option HLSStream × HLSMasterPlaylist :=
  if h.streams = [] then (none, h)
  else
    let sorted := List.insertionSort (mayPrecede lessBandwidth) h.streams
    (sorted.head?, { h with streams := sorted })

/-- `SelectBestStream`: dispatch on the lowered criteria string; the default
branch falls back to `SelectHighestQuality`.  (The source's leading
empty-list check is subsumed by the branches, all of which return `nil` for
an empty set.) -/
def SelectBestStream (h : HLSMasterPlaylist) (criteria : String) :
    Option HLSStream × HLSMasterPlaylist :=
  if goToLower criteria = "highest" then SelectHighestQuality h
  else if goToLower criteria = "lowest" then SelectLowestQuality h
  else if goToLower criteria = "bandwidth" then SelectByBandwidth h
  else SelectHighestQuality h

/-! ## `pipeline.go` — graph supervisor (`Start` / `Stop` / `IsRunning`)

The supervisor owns a `running` flag behind a read/write lock; `Start` and
`Stop` execute under the exclusive lock, so they are modelled as atomic
transformations of the pipeline state.  The GStreamer side effects they
issue (the requested element state, whether the GLib main loop is running)
are recorded in the state so that "does not alter the running graph" is
expressible. -/

/-- GStreamer element states requested by the supervisor. -/
inductive GstState where
  | null
  | playing
  deriving DecidableEq, Repr

/-- The supervisor-owned part of `Pipeline`. -/
structure PipelineState where
  running : Bool
  gstState : GstState
  loopRunning : Bool
  deriving DecidableEq, Repr

/-- Errors returned by `Start`. -/
inductive StartError where
  | alreadyRunning
  deriving DecidableEq, Repr

/-- `Pipeline.Start`: error (and no state change) when already running;
otherwise request `PLAYING`, mark running, and spawn the message loop and
main loop. -/
def Pipeline.start (s : PipelineState) : Option StartError × PipelineState :=
  if s.running then (some .alreadyRunning, s)
  else (none, { running := true, gstState := .playing, loopRunning := true })

/-- `Pipeline.Stop`: no-op without error when already stopped; otherwise
request `NULL`, quit the main loop, and clear the running flag. -/
def Pipeline.stop (s : PipelineState) : Option StartError × PipelineState :=
  if !s.running then (none, s)
  else (none, { running := false, gstState := .null, loopRunning := false })

/-- `Pipeline.IsRunning`. -/
def Pipeline.isRunning (s : PipelineState) : Bool := s.running

/-! ## `pipeline.go` — source-strategy dispatch (`createSourceElement`)

Element instantiation can fail when a plugin is missing; the runtime's
element factory is abstracted as an availability oracle.  Each
`create*Source` either reports the first missing element kind or returns the
shape of the ingest sub-graph it configured. -/

/-- Shapes of the ingest sub-graph, by strategy. -/
inductive SourceShape where
  | souphttpsrcChain   -- souphttpsrc → hlsdemux → tsdemux (manual)
  | playbin3Single     -- single playbin3 node
  | urisourcebinSingle -- single urisourcebin node
  deriving DecidableEq, Repr

/-- Construction-time errors of the source factory. -/
inductive BuildError where
  | nodeCreation (kind : String)
  deriving DecidableEq, Repr

/-- `createSouphttpsrcSource`: souphttpsrc + hlsdemux + tsdemux. -/
def createSouphttpsrcSource (avail : String → Bool) :
    Except BuildError SourceShape :=
  if !avail "souphttpsrc" then .error (.nodeCreation "souphttpsrc")
  else if !avail "hlsdemux" then .error (.nodeCreation "hlsdemux")
  else if !avail "tsdemux" then .error (.nodeCreation "tsdemux")
  else .ok .souphttpsrcChain

/-- `createPlaybin3Source` (the `pipeline.go` version: no manifest step). -/
def createPlaybin3Source (avail : String → Bool) :
    Except BuildError SourceShape :=
  if !avail "playbin3" then .error (.nodeCreation "playbin3")
  else .ok .playbin3Single

/-- `createUrisourcebinSource`. -/
def createUrisourcebinSource (avail : String → Bool) :
    Except BuildError SourceShape :=
  if !avail "urisourcebin" then .error (.nodeCreation "urisourcebin")
  else .ok .urisourcebinSingle

/-- `createSourceElement`: `switch cfg.Input.SourceType` — "playbin3",
"urisourcebin", and "souphttpsrc" fall through to the default, which builds
the souphttpsrc chain. -/
def createSourceElement (avail : String → Bool) (sourceType : String) :
    Except BuildError SourceShape :=
  if sourceType = "playbin3" then createPlaybin3Source avail
  else if sourceType = "urisourcebin" then createUrisourcebinSource avail
  else createSouphttpsrcSource avail

/-! ## `pipeline.go` — pad-added callbacks (dynamic topology linker)

A negotiated capability descriptor is zero or more structures, each carrying
a media-type name.  `GetCurrentCaps` (with, for the demux callbacks, a
`QueryCaps` fallback) may yield no descriptor at all, modelled as `none`.
Each callback is embedded as a pure decision function recording (a) whether
it invoked `GetStructureAt(0)` — the read the safety invariant restricts —
and (b) which sink it attempted to link the new pad to.  Whether the
candidate sink pad exists and is still unlinked is passed in as a flag. -/

/-- One structure of a capability descriptor. -/
structure CapsStructure where
  name : String
  deriving DecidableEq, Repr

/-- A capability descriptor: `GetSize` is `length`, `GetStructureAt 0` is
`get? 0`. -/
abbrev Caps := List CapsStructure

/-- Downstream sinks the callbacks link to. -/
inductive LinkTarget where
  | tsdemuxSink
  | videoQueueSink
  | audioQueueSink
  | videoConvSink
  | audioConvSink
  deriving DecidableEq, Repr

/-- The observable outcome of one pad-added callback. -/
structure PadDecision where
  readEntry0 : Bool
  linkTo : Option LinkTarget
  deriving DecidableEq, Repr

/-- The hlsdemux pad-added callback of `linkSouphttpsrcElements`:
guarded by `caps != nil && caps.GetSize() > 0`; dispatches MPEG-TS names to
tsdemux, `video/` to the video queue, `audio/` to the audio queue. -/
def hlsDemuxPadAdded (caps : Option Caps)
    (tsOk vidOk audOk : Bool) : PadDecision :=
  match caps with
  | none => ⟨false, none⟩
  | some cs =>
    if cs.length > 0 then
      match cs.get? 0 with
      | none => ⟨true, none⟩
      | some st =>
        let mediaType := st.name
        if goStarts mediaType "video/mpegts" || goStarts mediaType "video/mp2t"
        then ⟨true, if tsOk then some .tsdemuxSink else none⟩
        else if goStarts mediaType "video/" then
          ⟨true, if vidOk then some .videoQueueSink else none⟩
        else if goStarts mediaType "audio/" then
          ⟨true, if audOk then some .audioQueueSink else none⟩
        else ⟨true, none⟩
    else ⟨false, none⟩

/-- The tsdemux pad-added callback: same guard, video/audio dispatch only. -/
def tsDemuxPadAdded (caps : Option Caps) (vidOk audOk : Bool) : PadDecision :=
  match caps with
  | none => ⟨false, none⟩
  | some cs =>
    if cs.length > 0 then
      match cs.get? 0 with
      | none => ⟨true, none⟩
      | some st =>
        if goStarts st.name "video/" then
          ⟨true, if vidOk then some .videoQueueSink else none⟩
        else if goStarts st.name "audio/" then
          ⟨true, if audOk then some .audioQueueSink else none⟩
        else ⟨true, none⟩
    else ⟨false, none⟩

/-- The video decodebin pad-added callback of `linkVideoChain`: guarded by
`caps != nil && caps.GetSize() > 0`; links `video/` pads to the video
converter. -/
def videoDecodePadAdded (caps : Option Caps) (convOk : Bool) : PadDecision :=
  match caps with
  | none => ⟨false, none⟩
  | some cs =>
    if cs.length > 0 then
      match cs.get? 0 with
      | none => ⟨true, none⟩
      | some st =>
        if goStarts st.name "video/" then
          ⟨true, if convOk then some .videoConvSink else none⟩
        else ⟨true, none⟩
    else ⟨false, none⟩

/-- The audio decodebin pad-added callback of `linkAudioChain`.  The source
guards only with `caps != nil` — there is no `GetSize() > 0` check before
`GetStructureAt(0)`, so a non-null empty descriptor is indexed at entry 0
(`GetStructureAt` then reports no structure and nothing is linked). -/
def audioDecodePadAdded (caps : Option Caps) (convOk : Bool) : PadDecision :=
  match caps with
  | none => ⟨false, none⟩
  | some cs =>
    match cs.get? 0 with
    | none => ⟨true, none⟩
    | some st =>
      if goStarts st.name "audio/" then
        ⟨true, if convOk then some .audioConvSink else none⟩
      else ⟨true, none⟩

/-! ## `errors.go` — error handler and recovery manager -/

/-- `ErrorType`. -/
inductive ErrorType where
  | unknown
  | input
  | decoding
  | encoding
  | output
  | network
  | resource
  | configuration
  deriving DecidableEq, Repr

/-- `PipelineError` (the `Timestamp` field is wall-clock time, outside the
embedding). -/
structure PipelineErr where
  type : ErrorType
  message : String
  source : String
  debug : String
  deriving DecidableEq, Repr

/-- `ErrorHandler` (the retry delay only feeds `time.Sleep`). -/
structure ErrorHandler where
  maxRetries : Nat
  retryCount : ErrorType → Nat
  lastError : Option PipelineErr

/-- `NewErrorHandler`: empty counter map. -/
def NewErrorHandler (maxRetries : Nat) : ErrorHandler :=
  ⟨maxRetries, fun _ => 0, none⟩

/-- `shouldRetry`: network and input retry, resource retries, configuration
never, all other categories never by default. -/
def shouldRetry (errorType : ErrorType) : Bool :=
  match errorType with
  | .network => true
  | .input => true
  | .resource => true
  | .configuration => false
  | _ => false

/-- `HandleError`: record the fault, refuse non-retryable categories,
otherwise increment the category counter and approve unless the counter now
exceeds `maxRetries` (the `time.Sleep` before approval is elided). -/
def HandleError (eh : ErrorHandler) (e : PipelineErr) : Bool × ErrorHandler :=
  let eh1 := { eh with lastError := some e }
  if !shouldRetry e.type then (false, eh1)
  else
    let eh2 := { eh1 with retryCount :=
      fun t => if t = e.type then eh1.retryCount t + 1 else eh1.retryCount t }
    if eh2.retryCount e.type > eh2.maxRetries then (false, eh2)
    else (true, eh2)

/-- `Reset`: fresh counter map, no last error. -/
def ErrorHandler.reset (eh : ErrorHandler) : ErrorHandler :=
  { eh with retryCount := fun _ => 0, lastError := none }

/-- `GetRetryCount`. -/
def GetRetryCount (eh : ErrorHandler) (t : ErrorType) : Nat :=
  eh.retryCount t

/-- `n` consecutive invocations of `HandleError` with the same fault,
keeping only the final handler state. -/
def applyFaults (e : PipelineErr) : Nat → ErrorHandler → ErrorHandler
  | 0, eh => eh
  | n + 1, eh => (HandleError (applyFaults e n eh) e).2

/-- `RecoveryManager.attemptRestart`: stop the pipeline (a failure is only
logged), wait the restart delay (elided), start it again, and reset the
retry counters exactly when the restart succeeded. -/
def attemptRestart (ps : PipelineState) (eh : ErrorHandler) :
    PipelineState × ErrorHandler :=
  let ps1 := (Pipeline.stop ps).2
  match Pipeline.start ps1 with
  | (none, ps2) => (ps2, eh.reset)
  | (some _, ps2) => (ps2, eh)

/-! ## `hls.go` — `NewHLSInput` / `validateHLSURL`

`net/url.Parse` is abstracted: the validator receives the parse outcome
(`none` for a parse failure) alongside the raw address; only the scheme and
path take part in the decision. -/

/-- The fields of `net/url.URL` inspected by the validator. -/
structure GoURL where
  scheme : String
  path : String
  deriving DecidableEq, Repr

/-- The four rejection sites of `validateHLSURL`. -/
inductive HLSURLError where
  | empty
  | badFormat
  | badScheme
  | notPlaylist
  deriving DecidableEq, Repr

/-- `validateHLSURL`: non-empty, parseable, http(s) scheme, and a path ending
case-insensitively in `.m3u8` or `.m3u`. -/
def validateHLSURL (hlsURL : String) (parsed : Option GoURL) :
    Except HLSURLError Unit :=
  if hlsURL = "" then .error .empty
  else
    match parsed with
    | none => .error .badFormat
    | some u =>
      if u.scheme ≠ "http" ∧ u.scheme ≠ "https" then .error .badScheme
      else if ¬ (goEnds (goToLower u.path) ".m3u8" = true ∨
                 goEnds (goToLower u.path) ".m3u" = true) then
        .error .notPlaylist
      else .ok ()

/-- `NewHLSInput`: fails exactly when the URL validation fails. -/
def NewHLSInput (hlsURL : String) (parsed : Option GoURL) :
    Except HLSURLError Unit :=
  match validateHLSURL hlsURL parsed with
  | .error e => .error e
  | .ok _ => .ok ()

/-! ## The playbin3 pipeline variant — `createPlaybin3Source` with manifest
resolution (fully automatic strategy)

The function first resolves the manifest when `ParseMasterPlaylist` is
enabled, replacing the configured address by the selected variant's address
and recording that variant's resolution when none was configured; only then
does it instantiate the playbin3 node.  The decision part is embedded; the
HTTP fetch behind `ParseHLSMasterPlaylist` arrives as an explicit
outcome. -/

/-- The `config.InputConfig` fields read by the manifest-resolution step. -/
structure InputConfig where
  hlsUrl : String
  parseMasterPlaylist : Bool
  streamSelection : String
  preferredWidth : Int
  preferredHeight : Int
  deriving DecidableEq, Repr

namespace Auto

/-- The manifest-resolution prologue of the playbin3 `createPlaybin3Source`:
returns the (possibly updated) input configuration and the final URI given
to playbin3. -/
def createPlaybin3SourceResolve (cfg : InputConfig)
    (parsed : Except HLSParseError HLSMasterPlaylist) :
    InputConfig × String :=
  if cfg.parseMasterPlaylist then
    match parsed with
    | .error _ => (cfg, cfg.hlsUrl)
    | .ok playlist =>
      let selection :=
        if cfg.streamSelection = "" then "highest" else cfg.streamSelection
      match (SelectBestStream playlist selection).1 with
      | some best =>
        let cfg' :=
          if cfg.preferredWidth = 0 ∧ cfg.preferredHeight = 0 then
            { cfg with preferredWidth := best.width,
                       preferredHeight := best.height }
          else cfg
        (cfg', best.url)
      | none => (cfg, cfg.hlsUrl)
  else (cfg, cfg.hlsUrl)

end Auto

/-! ## Lemmas about the selection comparators -/

theorem lessHighest_irrefl (a : HLSStream) : lessHighest a a = false := by
  simp [lessHighest]

theorem mayPrecede_highest (a b : HLSStream) :
    mayPrecede lessHighest a b ↔
      hlsRes b < hlsRes a ∨ (hlsRes b = hlsRes a ∧ b.bandwidth ≤ a.bandwidth) := by
  unfold mayPrecede lessHighest
  by_cases h : hlsRes b = hlsRes a
  · simp [h]
  · simp [h, decide_eq_false_iff_not]
    omega

theorem mayPrecede_lowest (a b : HLSStream) :
    mayPrecede lessLowest a b ↔
      hlsRes a < hlsRes b ∨ (hlsRes b = hlsRes a ∧ a.bandwidth ≤ b.bandwidth) := by
  unfold mayPrecede lessLowest
  by_cases h : hlsRes b = hlsRes a
  · simp [h]
  · simp [h, decide_eq_false_iff_not]
    omega

theorem mayPrecede_bandwidth (a b : HLSStream) :
    mayPrecede lessBandwidth a b ↔ b.bandwidth ≤ a.bandwidth := by
  unfold mayPrecede lessBandwidth
  simp [decide_eq_false_iff_not]

instance : IsTotal HLSStream (mayPrecede lessHighest) :=
  ⟨fun a b => by simp [mayPrecede_highest]; omega⟩

instance : IsTrans HLSStream (mayPrecede lessHighest) :=
  ⟨fun a b c hab hbc => by
    simp [mayPrecede_highest] at hab hbc ⊢; omega⟩

instance : IsTotal HLSStream (mayPrecede lessLowest) :=
  ⟨fun a b => by simp [mayPrecede_lowest]; omega⟩

instance : IsTrans HLSStream (mayPrecede lessLowest) :=
  ⟨fun a b c hab hbc => by
    simp [mayPrecede_lowest] at hab hbc ⊢; omega⟩

instance : IsTotal HLSStream (mayPrecede lessBandwidth) :=
  ⟨fun a b => by simp [mayPrecede_bandwidth]; omega⟩

instance : IsTrans HLSStream (mayPrecede lessBandwidth) :=
  ⟨fun a b c hab hbc => by
    simp [mayPrecede_bandwidth] at hab hbc ⊢; omega⟩

/-- The stream returned by `SelectHighestQuality` may precede every stream of
the playlist in the sort order. -/
theorem selectHighest_head_bound (pl : HLSMasterPlaylist) (v : HLSStream)
    (hv : (SelectHighestQuality pl).1 = some v) :
    ∀ s ∈ pl.streams, mayPrecede lessHighest v s := by
  unfold SelectHighestQuality at hv
  by_cases h : pl.streams = []
  · simp [h] at hv
  · simp only [h, if_neg, ite_false] at hv
    intro s hs
    have hperm := List.perm_insertionSort (mayPrecede lessHighest) pl.streams
    have hs' : s ∈ List.insertionSort (mayPrecede lessHighest) pl.streams :=
      hperm.mem_iff.mpr hs
    have hsorted :=
      List.sorted_insertionSort (mayPrecede lessHighest) pl.streams
    cases hl : List.insertionSort (mayPrecede lessHighest) pl.streams with
    | nil => rw [hl] at hs'; cases hs'
    | cons a t =>
      rw [hl] at hv hs' hsorted
      have hva : a = v := by simpa using hv
      subst hva
      rcases List.mem_cons.mp hs' with rfl | hmem
      · show lessHighest s s = false
        exact lessHighest_irrefl s
      · exact List.rel_of_sorted_cons hsorted s hmem

/-- In-place `sort.Slice` leaves a permutation of the input behind
(`SelectHighestQuality`). -/
theorem selectHighest_perm (pl : HLSMasterPlaylist) :
    ((SelectHighestQuality pl).2.streams).Perm pl.streams ∧
    (SelectHighestQuality pl).2.baseURL = pl.baseURL := by
  unfold SelectHighestQuality
  by_cases h : pl.streams = []
  · simp [h]
  · simp [h, List.perm_insertionSort]

/-- In-place `sort.Slice` leaves a permutation of the input behind
(`SelectLowestQuality`). -/
theorem selectLowest_perm (pl : HLSMasterPlaylist) :
    ((SelectLowestQuality pl).2.streams).Perm pl.streams ∧
    (SelectLowestQuality pl).2.baseURL = pl.baseURL := by
  unfold SelectLowestQuality
  by_cases h : pl.streams = []
  · simp [h]
  · simp [h, List.perm_insertionSort]

/-- In-place `sort.Slice` leaves a permutation of the input behind
(`SelectByBandwidth`). -/
theorem selectBandwidth_perm (pl : HLSMasterPlaylist) :
    ((SelectByBandwidth pl).2.streams).Perm pl.streams ∧
    (SelectByBandwidth pl).2.baseURL = pl.baseURL := by
  unfold SelectByBandwidth
  by_cases h : pl.streams = []
  · simp [h]
  · simp [h, List.perm_insertionSort]

/-! ## Sample data (shared by witnesses and counterexamples) -/

/-- A low-resolution variant (384×216 at 498 kbps). -/
def vLo : HLSStream :=
  { HLSStream.empty with
      url := "http://e/lo/v.m3u8", bandwidth := 498000,
      resolution := "384x216", width := 384, height := 216 }

/-- A high-resolution variant (1920×1080 at 5.47 Mbps). -/
def vHi : HLSStream :=
  { HLSStream.empty with
      url := "http://e/hi/v.m3u8", bandwidth := 5470000,
      resolution := "1920x1080", width := 1920, height := 1080 }

/-- A playlist listing the low-resolution variant first. -/
def samplePl : HLSMasterPlaylist := ⟨[vLo, vHi], "http://e/"⟩

/-! ## Claim theorems -/

/-- C1 (code bug): the audio-decoder pad-added callback of `linkAudioChain`
violates the capability-safety invariant: fed a non-null capability
descriptor of length 0 it still indexes entry 0 (`GetStructureAt(0)`),
whereas the HLS-demux, transport-stream-demux and video-decoder callbacks
are guarded by the required `GetSize() > 0` check and read nothing on the
same input.  (It also leaves the port unlinked, so only the read part of the
invariant is broken.)  This contradicts `BUGFIX_CAPS_CRITICAL.md`, which
states the guard was applied to all five pad-added callbacks. -/
theorem claim_C1_audio_callback_reads_empty_descriptor :
    (audioDecodePadAdded (some ([] : Caps)) true).readEntry0 = true ∧
    (audioDecodePadAdded (some ([] : Caps)) true).linkTo = none ∧
    (videoDecodePadAdded (some ([] : Caps)) true).readEntry0 = false ∧
    (hlsDemuxPadAdded (some ([] : Caps)) true true true).readEntry0 = false ∧
    (tsDemuxPadAdded (some ([] : Caps)) true true).readEntry0 = false ∧
    ([] : Caps).length = 0 := by
  decide

/-- C2: `Start` while running returns the already-running error and leaves
the state untouched; `Stop` while stopped is an error-free no-op; otherwise
`Start` transitions Stopped→Running (requesting `PLAYING`) and `Stop`
transitions Running→Stopped (requesting `NULL`). -/
theorem claim_C2_start_stop_transitions (s : PipelineState) :
    (s.running = true → Pipeline.start s = (some .alreadyRunning, s)) ∧
    (s.running = false → Pipeline.stop s = (none, s)) ∧
    (s.running = false →
      Pipeline.start s =
        (none, { running := true, gstState := .playing, loopRunning := true })) ∧
    (s.running = true →
      Pipeline.stop s =
        (none, { running := false, gstState := .null, loopRunning := false })) := by
  cases hb : s.running <;>
    simp [Pipeline.start, Pipeline.stop, hb]

/-- Witness for C2 at concrete running and stopped states. -/
theorem claim_C2_witness :
    Pipeline.start ⟨true, .playing, true⟩ =
      (some .alreadyRunning, ⟨true, .playing, true⟩) ∧
    Pipeline.stop ⟨false, .null, false⟩ = (none, ⟨false, .null, false⟩) ∧
    Pipeline.start ⟨false, .null, false⟩ =
      (none, ⟨true, .playing, true⟩) ∧
    Pipeline.stop ⟨true, .playing, true⟩ =
      (none, ⟨false, .null, false⟩) :=
  ⟨(claim_C2_start_stop_transitions _).1 rfl,
   (claim_C2_start_stop_transitions _).2.1 rfl,
   (claim_C2_start_stop_transitions _).2.2.1 rfl,
   (claim_C2_start_stop_transitions _).2.2.2 rfl⟩

/-- One `HandleError` call on a network fault increments the network
counter and keeps `maxRetries`. -/
theorem handleError_network_step (eh : ErrorHandler) (e : PipelineErr)
    (he : e.type = .network) :
    (HandleError eh e).2.retryCount .network = eh.retryCount .network + 1 ∧
    (HandleError eh e).2.maxRetries = eh.maxRetries := by
  constructor <;> simp only [HandleError, he, shouldRetry] <;>
    split_ifs <;> simp_all

/-- `HandleError` approves a network fault exactly while the incremented
counter stays within `maxRetries`. -/
theorem handleError_network_result (eh : ErrorHandler) (e : PipelineErr)
    (he : e.type = .network) :
    (HandleError eh e).1 =
      decide (eh.retryCount .network + 1 ≤ eh.maxRetries) := by
  simp only [HandleError, he, shouldRetry]
  by_cases hc : eh.retryCount .network + 1 > eh.maxRetries
  · simp only [Bool.not_true, ite_false, if_pos, reduceIte]
    split
    · simp [decide_eq_true_eq]
      omega
    · simp_all
  · simp only [Bool.not_true, reduceIte]
    split
    · simp_all
    · simp [decide_eq_true_eq]
      omega

/-- The retry counter of a category equals the number of consecutive faults
of that category handled since the handler was fresh, and `maxRetries` is
preserved (`shouldRetry` holds for network faults, so every call
increments). -/
theorem applyFaults_network_count (e : PipelineErr) (he : e.type = .network)
    (m : Nat) : ∀ n : Nat,
    (applyFaults e n (NewErrorHandler m)).retryCount .network = n ∧
    (applyFaults e n (NewErrorHandler m)).maxRetries = m := by
  intro n
  induction n with
  | zero => simp [applyFaults, NewErrorHandler]
  | succ k ih =>
    obtain ⟨ih1, ih2⟩ := ih
    obtain ⟨s1, s2⟩ :=
      handleError_network_step (applyFaults e k (NewErrorHandler m)) e he
    exact ⟨by simpa [applyFaults, ih1] using s1,
           by simpa [applyFaults, ih2] using s2⟩

/-- C3: with maximum `m`, each of the first `m` consecutive network faults
is approved for retry, the `(m+1)`-th is refused; after a (successful)
restart the network retry counter reads 0; network, input and resource
categories are retryable while configuration and unknown categories never
are. -/
theorem claim_C3_retry_policy (m k : Nat) (e : PipelineErr)
    (ps : PipelineState) (eh : ErrorHandler) :
    (e.type = .network → k < m →
      (HandleError (applyFaults e k (NewErrorHandler m)) e).1 = true) ∧
    (e.type = .network →
      (HandleError (applyFaults e m (NewErrorHandler m)) e).1 = false) ∧
    GetRetryCount (attemptRestart ps eh).2 .network = 0 ∧
    shouldRetry .network = true ∧ shouldRetry .input = true ∧
    shouldRetry .resource = true ∧ shouldRetry .configuration = false ∧
    shouldRetry .unknown = false := by
  refine ⟨?_, ?_, ?_, rfl, rfl, rfl, rfl, rfl⟩
  · intro he hk
    obtain ⟨h1, h2⟩ := applyFaults_network_count e he m k
    rw [handleError_network_result _ _ he, h1, h2]
    simp [decide_eq_true_eq]
    omega
  · intro he
    obtain ⟨h1, h2⟩ := applyFaults_network_count e he m m
    rw [handleError_network_result _ _ he, h1, h2]
    simp
  · cases hb : ps.running <;>
      simp [attemptRestart, Pipeline.stop, Pipeline.start, hb,
        ErrorHandler.reset, GetRetryCount]

/-- Witness for C3: `maxRetries = 3`; the 1st and 3rd network faults are
approved, the 4th refused, and a restart clears a non-zero counter. -/
theorem claim_C3_witness :
    (HandleError (applyFaults ⟨.network, "timeout", "src", ""⟩ 0
        (NewErrorHandler 3)) ⟨.network, "timeout", "src", ""⟩).1 = true ∧
    (HandleError (applyFaults ⟨.network, "timeout", "src", ""⟩ 2
        (NewErrorHandler 3)) ⟨.network, "timeout", "src", ""⟩).1 = true ∧
    (HandleError (applyFaults ⟨.network, "timeout", "src", ""⟩ 3
        (NewErrorHandler 3)) ⟨.network, "timeout", "src", ""⟩).1 = false ∧
    GetRetryCount
      (attemptRestart ⟨true, .playing, true⟩ ⟨3, fun _ => 2, none⟩).2
      .network = 0 :=
  ⟨(claim_C3_retry_policy 3 0 _ ⟨true, .playing, true⟩
      ⟨3, fun _ => 2, none⟩).1 rfl (by decide),
   (claim_C3_retry_policy 3 2 _ ⟨true, .playing, true⟩
      ⟨3, fun _ => 2, none⟩).1 rfl (by decide),
   (claim_C3_retry_policy 3 3 _ ⟨true, .playing, true⟩
      ⟨3, fun _ => 2, none⟩).2.1 rfl,
   (claim_C3_retry_policy 3 0 ⟨.network, "timeout", "src", ""⟩
      ⟨true, .playing, true⟩ ⟨3, fun _ => 2, none⟩).2.2.1⟩

/-- C4 (counterexample): a configuration whose strategy name is
unrecognized ("bogus" is none of playbin3 / urisourcebin / souphttpsrc)
does **not** fail graph construction with an unsupported-strategy error —
`createSourceElement` silently builds the manual souphttpsrc chain. -/
theorem claim_C4_counterexample :
    createSourceElement (fun _ => true) "bogus" = .ok .souphttpsrcChain ∧
    "bogus" ≠ "playbin3" ∧ "bogus" ≠ "urisourcebin" ∧
    "bogus" ≠ "souphttpsrc" := by
  refine ⟨by rfl, by decide, by decide, by decide⟩

/-- C4 (amended): for every configuration whose ingestion strategy name is
not one of the recognized strategies, `createSourceElement` falls back to
the manual souphttpsrc chain, exactly as for the "souphttpsrc" name; no
unsupported-strategy error exists. -/
theorem claim_C4_fallback_to_manual (avail : String → Bool)
    (sourceType : String) (h1 : sourceType ≠ "playbin3")
    (h2 : sourceType ≠ "urisourcebin") :
    createSourceElement avail sourceType = createSouphttpsrcSource avail := by
  simp [createSourceElement, h1, h2]

/-- Witness for the amended C4 at the strategy name "bogus". -/
theorem claim_C4_witness :
    createSourceElement (fun _ => true) "bogus" =
      createSouphttpsrcSource (fun _ => true) :=
  claim_C4_fallback_to_manual (fun _ => true) "bogus" (by decide) (by decide)

/-- C5 (counterexample): running the highest-resolution selection over a
parsed playlist does *not* leave the Variant list in insertion order — the
in-place `sort.Slice` reorders `h.Streams`. -/
theorem claim_C5_counterexample :
    samplePl.streams = [vLo, vHi] ∧
    (SelectBestStream samplePl "highest").2.streams = [vHi, vLo] ∧
    (SelectBestStream samplePl "highest").2.streams ≠ samplePl.streams := by
  refine ⟨rfl, by decide, by decide⟩

/-- C5 (amended): a selection operation sorts the resolved Variant list in
place: the resulting list is a permutation of the parsed list (no Variant
is added, removed or modified, and the base address is untouched), but the
insertion order is generally not preserved. -/
theorem claim_C5_selection_permutes (pl : HLSMasterPlaylist)
    (criteria : String) :
    ((SelectBestStream pl criteria).2.streams).Perm pl.streams ∧
    (SelectBestStream pl criteria).2.baseURL = pl.baseURL := by
  unfold SelectBestStream
  split
  · exact selectHighest_perm pl
  · split
    · exact selectLowest_perm pl
    · split
      · exact selectBandwidth_perm pl
      · exact selectHighest_perm pl

/-- C7: highest-resolution selection returns `none` exactly for an empty
Variant set; any returned Variant has width×height at least that of every
Variant in the set, and at least the peak bitrate of every Variant of equal
resolution. -/
theorem claim_C7_highest_resolution_policy (pl : HLSMasterPlaylist) :
    (pl.streams = [] → (SelectHighestQuality pl).1 = none) ∧
    (pl.streams ≠ [] → ((SelectHighestQuality pl).1).isSome = true) ∧
    (∀ v, (SelectHighestQuality pl).1 = some v →
      v ∈ pl.streams ∧
      ∀ s ∈ pl.streams,
        hlsRes s ≤ hlsRes v ∧
        (hlsRes s = hlsRes v → s.bandwidth ≤ v.bandwidth)) := by
  refine ⟨fun h => by simp [SelectHighestQuality, h], fun h => ?_, ?_⟩
  · simp only [SelectHighestQuality, h, ite_false]
    cases hl : List.insertionSort (mayPrecede lessHighest) pl.streams with
    | nil =>
      have := List.perm_insertionSort (mayPrecede lessHighest) pl.streams
      rw [hl] at this
      exact absurd this.symm.eq_nil h
    | cons a t => simp
  · intro v hv
    refine ⟨?_, fun s hs => ?_⟩
    · have hne : pl.streams ≠ [] := by
        intro h
        simp [SelectHighestQuality, h] at hv
      unfold SelectHighestQuality at hv
      simp only [hne, ite_false] at hv
      have hperm := List.perm_insertionSort (mayPrecede lessHighest) pl.streams
      have hmem : v ∈ List.insertionSort (mayPrecede lessHighest) pl.streams := by
        cases hl : List.insertionSort (mayPrecede lessHighest) pl.streams with
        | nil => rw [hl] at hv; simp at hv
        | cons a t =>
          rw [hl] at hv
          have : a = v := by simpa using hv
          subst this
          exact List.mem_cons_self a t
      exact hperm.mem_iff.mp hmem
    · have hb := selectHighest_head_bound pl v hv s hs
      rw [mayPrecede_highest] at hb
      constructor
      · omega
      · intro he
        omega

/-- Whether a fallible Go call returned without error. -/
def exceptOk {ε α : Type} : Except ε α → Bool
  | .ok _ => true
  | .error _ => false

/-- The body of the sample 2xx-but-not-200 response: one well-formed
variant declaration and its absolute address. -/
def sampleLines : List String :=
  ["#EXT-X-STREAM-INF:BANDWIDTH=1566000,RESOLUTION=720x404",
   "http://e/v0/v.m3u8"]

/-- C6 (counterexample): a 201 (Created) response — a 2xx status — whose
body yields one variant is rejected by `ParseHLSMasterPlaylist` with an
HTTP error, although the claim promises success for every 2xx response
with at least one variant. -/
theorem claim_C6_counterexample :
    ParseHLSMasterPlaylist "http://e/master.m3u8"
        (.response 201 sampleLines false) = .error (.httpError 201) ∧
    200 ≤ 201 ∧ 201 < 300 ∧
    parseLines (baseURLOf "http://e/master.m3u8") sampleLines ≠ [] := by
  refine ⟨by decide, by decide, by decide, by decide⟩

/-- C6 (amended): manifest resolution fails exactly when the transport
fails, the HTTP status is not exactly 200 (OK), the body read fails, or
zero variants are parsed; every 200 response read without error whose body
yields at least one variant returns that variant set (with the manifest's
base address) and no error. -/
theorem claim_C6_parse_error_conditions (url : String)
    (resp : FetchOutcome) :
    (exceptOk (ParseHLSMasterPlaylist url resp) = true ↔
      ∃ lines, resp = .response 200 lines false ∧
        parseLines (baseURLOf url) lines ≠ []) ∧
    (∀ status lines, resp = .response status lines false → status = 200 →
      parseLines (baseURLOf url) lines ≠ [] →
      ParseHLSMasterPlaylist url resp =
        .ok ⟨parseLines (baseURLOf url) lines, baseURLOf url⟩) := by
  cases resp with
  | transportError =>
    refine ⟨⟨fun hpl => ?_, fun h => ?_⟩, fun status lines heq => ?_⟩
    · simp [ParseHLSMasterPlaylist, exceptOk] at hpl
    · obtain ⟨l, hl, -⟩ := h
      simp at hl
    · simp at heq
  | response status lines readErr =>
    refine ⟨⟨fun hpl => ?_, fun h => ?_⟩, ?_⟩
    · by_cases h200 : status = 200
      · subst h200
        cases readErr with
        | true => simp [ParseHLSMasterPlaylist, exceptOk] at hpl
        | false =>
          by_cases hne : parseLines (baseURLOf url) lines = []
          · simp [ParseHLSMasterPlaylist, exceptOk, hne] at hpl
          · exact ⟨lines, rfl, hne⟩
      · simp [ParseHLSMasterPlaylist, exceptOk, h200] at hpl
    · obtain ⟨l, hl, hne⟩ := h
      obtain ⟨h1, h2, h3⟩ : status = 200 ∧ lines = l ∧ readErr = false := by
        simpa using hl
      subst h1; subst h2; subst h3
      simp [ParseHLSMasterPlaylist, exceptOk, hne]
    · intro status' lines' heq h200 hne
      obtain ⟨h1, h2, h3⟩ :
          status = status' ∧ lines = lines' ∧ readErr = false := by
        simpa using heq
      subst h1; subst h2; subst h3; subst h200
      simp [ParseHLSMasterPlaylist, hne]

/-- Witness for C6 at a concrete 200 response carrying one variant. -/
theorem claim_C6_witness :
    ParseHLSMasterPlaylist "http://e/master.m3u8"
        (.response 200 sampleLines false) =
      .ok ⟨parseLines (baseURLOf "http://e/master.m3u8") sampleLines,
           baseURLOf "http://e/master.m3u8"⟩ :=
  (claim_C6_parse_error_conditions "http://e/master.m3u8"
      (.response 200 sampleLines false)).2 200 sampleLines rfl rfl (by decide)

/-- A string starting with "http" does not start with "/". -/
theorem goStarts_http_not_slash (s : String)
    (h : goStarts s "http" = true) : goStarts s "/" = false := by
  have hd : "http".data = ['h', 't', 't', 'p'] := rfl
  have hs : "/".data = ['/'] := rfl
  unfold goStarts at h ⊢
  rw [hd] at h
  rw [hs]
  cases hl : s.data with
  | nil => rw [hl] at h; simp [listStarts] at h
  | cons c cs =>
    rw [hl] at h
    simp [listStarts] at h ⊢
    rcases h with ⟨h1, -⟩
    subst h1
    decide

/-- C8 (counterexample): a variant declaration with positive bandwidth
followed by a non-comment line ("video.m3u8" does not start with `#`) emits
no variant at all — the next non-comment line is *not* taken as the pending
Variant's address, because only lines starting with "http" or "/" are
treated as addresses. -/
theorem claim_C8_counterexample :
    parseLines "http://h/"
        ["#EXT-X-STREAM-INF:BANDWIDTH=100", "video.m3u8"] = [] ∧
    goStarts (goTrimSpace "video.m3u8") "#" = false ∧
    (parseStreamInf "BANDWIDTH=100").bandwidth = 100 := by
  refine ⟨by decide, by decide, by decide⟩

/-- C8 (amended): in the scan loop of `ParseHLSMasterPlaylist`, a
variant-declaration record opens a pending Variant carrying its parsed
attributes; the next line beginning with "http" (an absolute address, used
verbatim) or with "/" (a root-relative address, resolved against the
manifest's base address) emits the pending Variant with that address —
other lines are ignored — and while the pending Variant's bitrate is ≤ 0
such an address line emits nothing. -/
theorem claim_C8_parsing_rule (baseURL : String) (st : ParseState) :
    (∀ line, goStarts (goTrimSpace line) "#EXT-X-STREAM-INF:" = true →
      processLine baseURL st line =
        { st with current := parseStreamInf (goTrimPre (goTrimSpace line) "#EXT-X-STREAM-INF:") }) ∧
    (∀ line, goStarts (goTrimSpace line) "#EXT-X-STREAM-INF:" = false →
      goStarts (goTrimSpace line) "http" = true →
      0 < st.current.bandwidth →
      processLine baseURL st line =
        ⟨{ st.current with url := goTrimSpace line },
         st.streams ++ [{ st.current with url := goTrimSpace line }]⟩) ∧
    (∀ line, goStarts (goTrimSpace line) "#EXT-X-STREAM-INF:" = false →
      goStarts (goTrimSpace line) "/" = true →
      0 < st.current.bandwidth →
      processLine baseURL st line =
        ⟨{ st.current with url := baseURL ++ goTrimPre (goTrimSpace line) "/" },
         st.streams ++ [{ st.current with url := baseURL ++ goTrimPre (goTrimSpace line) "/" }]⟩) ∧
    (∀ line, goStarts (goTrimSpace line) "#EXT-X-STREAM-INF:" = false →
      (goStarts (goTrimSpace line) "http" = true ∨
        goStarts (goTrimSpace line) "/" = true) →
      st.current.bandwidth ≤ 0 →
      processLine baseURL st line = st) := by
  refine ⟨fun line h => ?_, fun line h hh hb => ?_, fun line h hs hb => ?_,
    fun line h hor hb => ?_⟩
  · simp [processLine, h]
  · have hns := goStarts_http_not_slash (goTrimSpace line) hh
    simp [processLine, h, hh, hns, hb]
  · simp [processLine, h, hs, hb]
  · have hbf : ¬ (0 < st.current.bandwidth) := by omega
    rcases hor with hh | hs
    · simp [processLine, h, hh, hbf]
    · simp [processLine, h, hs, hbf]

/-- Witness for C8: the three behaviours at concrete lines (declaration,
absolute address, root-relative address, and an address line with a
non-positive pending bitrate). -/
theorem claim_C8_witness :
    processLine "http://h/x/" ⟨HLSStream.empty, []⟩
        "#EXT-X-STREAM-INF:BANDWIDTH=100" =
      ⟨{ HLSStream.empty with bandwidth := 100 }, []⟩ ∧
    processLine "http://h/x/" ⟨{ HLSStream.empty with bandwidth := 100 }, []⟩
        "http://cdn/v.m3u8" =
      ⟨{ HLSStream.empty with bandwidth := 100, url := "http://cdn/v.m3u8" },
       [{ HLSStream.empty with bandwidth := 100, url := "http://cdn/v.m3u8" }]⟩ ∧
    processLine "http://h/x/" ⟨{ HLSStream.empty with bandwidth := 100 }, []⟩
        "/v.m3u8" =
      ⟨{ HLSStream.empty with bandwidth := 100, url := "http://h/x/v.m3u8" },
       [{ HLSStream.empty with bandwidth := 100, url := "http://h/x/v.m3u8" }]⟩ ∧
    processLine "http://h/x/" ⟨HLSStream.empty, []⟩ "http://cdn/v.m3u8" =
      ⟨HLSStream.empty, []⟩ :=
  ⟨((claim_C8_parsing_rule "http://h/x/" ⟨HLSStream.empty, []⟩).1
      "#EXT-X-STREAM-INF:BANDWIDTH=100" (by decide)).trans (by decide),
   ((claim_C8_parsing_rule "http://h/x/"
        ⟨{ HLSStream.empty with bandwidth := 100 }, []⟩).2.1
      "http://cdn/v.m3u8" (by decide) (by decide) (by decide)).trans
     (by decide),
   ((claim_C8_parsing_rule "http://h/x/"
        ⟨{ HLSStream.empty with bandwidth := 100 }, []⟩).2.2.1
      "/v.m3u8" (by decide) (by decide) (by decide)).trans (by decide),
   ((claim_C8_parsing_rule "http://h/x/" ⟨HLSStream.empty, []⟩).2.2.2
      "http://cdn/v.m3u8" (by decide) (Or.inl (by decide)) (by decide))⟩

/-- C9: for the fully-automatic (playbin3) strategy with manifest
resolution enabled, graph construction replaces the configured address with
the policy-selected Variant's address; when neither preferred dimension was
configured (both zero) the Variant's width and height are recorded as the
preferred output resolution, and otherwise the configured resolution is
left unchanged. -/
theorem claim_C9_playbin3_manifest_resolution (cfg : InputConfig)
    (pl : HLSMasterPlaylist) (best : HLSStream)
    (hen : cfg.parseMasterPlaylist = true)
    (hbest : (SelectBestStream pl
        (if cfg.streamSelection = "" then "highest"
         else cfg.streamSelection)).1 = some best) :
    (Auto.createPlaybin3SourceResolve cfg (.ok pl)).2 = best.url ∧
    (cfg.preferredWidth = 0 ∧ cfg.preferredHeight = 0 →
      (Auto.createPlaybin3SourceResolve cfg (.ok pl)).1 =
        { cfg with preferredWidth := best.width,
                   preferredHeight := best.height }) ∧
    (¬ (cfg.preferredWidth = 0 ∧ cfg.preferredHeight = 0) →
      (Auto.createPlaybin3SourceResolve cfg (.ok pl)).1 = cfg) := by
  refine ⟨?_, fun hz => ?_, fun hnz => ?_⟩
  · simp [Auto.createPlaybin3SourceResolve, hen, hbest]
  · obtain ⟨hz1, hz2⟩ := hz
    simp [Auto.createPlaybin3SourceResolve, hen, hbest, hz1, hz2]
  · simp [Auto.createPlaybin3SourceResolve, hen, hbest, hnz]

/-- Witness for C9: resolving `samplePl` for a configuration without a
preferred resolution records 1920×1080 and adopts the selected address; a
configuration with an explicit preference keeps it. -/
theorem claim_C9_witness :
    (Auto.createPlaybin3SourceResolve
        ⟨"http://e/master.m3u8", true, "", 0, 0⟩ (.ok samplePl)).2 =
      vHi.url ∧
    (Auto.createPlaybin3SourceResolve
        ⟨"http://e/master.m3u8", true, "", 0, 0⟩ (.ok samplePl)).1 =
      ⟨"http://e/master.m3u8", true, "", 1920, 1080⟩ ∧
    (Auto.createPlaybin3SourceResolve
        ⟨"http://e/master.m3u8", true, "", 1280, 720⟩ (.ok samplePl)).1 =
      ⟨"http://e/master.m3u8", true, "", 1280, 720⟩ :=
  ⟨(claim_C9_playbin3_manifest_resolution _ samplePl vHi rfl (by decide)).1,
   ((claim_C9_playbin3_manifest_resolution _ samplePl vHi rfl
       (by decide)).2.1 (by decide)).trans (by decide),
   (claim_C9_playbin3_manifest_resolution
       ⟨"http://e/master.m3u8", true, "", 1280, 720⟩ samplePl vHi rfl
       (by decide)).2.2 (by decide)⟩

/-- C10: `NewHLSInput` succeeds exactly for a non-empty, parseable address
with scheme http or https whose path ends case-insensitively in ".m3u8" or
".m3u"; every other address — in particular a syntactically valid HTTP
address without a playlist extension — is rejected at construction time. -/
theorem claim_C10_url_validation (hlsURL : String) (parsed : Option GoURL) :
    NewHLSInput hlsURL parsed = .ok () ↔
      (hlsURL ≠ "" ∧ ∃ u, parsed = some u ∧
        (u.scheme = "http" ∨ u.scheme = "https") ∧
        (goEnds (goToLower u.path) ".m3u8" = true ∨
          goEnds (goToLower u.path) ".m3u" = true)) := by
  unfold NewHLSInput validateHLSURL
  by_cases he : hlsURL = ""
  · simp [he]
  · cases parsed with
    | none => simp [he]
    | some u =>
      by_cases hs : u.scheme ≠ "http" ∧ u.scheme ≠ "https"
      · simp [he, hs]
      · by_cases hp : goEnds (goToLower u.path) ".m3u8" = true ∨
            goEnds (goToLower u.path) ".m3u" = true
        · simp [he, hs, hp]
          tauto
        · simp [he, hs, hp]

/-- Witness for C7: the empty playlist yields `none`; on `samplePl` a
Variant is returned and it dominates the low-resolution entry. -/
theorem claim_C7_witness :
    (SelectHighestQuality ⟨[], "http://e/"⟩).1 = none ∧
    ((SelectHighestQuality samplePl).1).isSome = true ∧
    vHi ∈ samplePl.streams ∧
    (hlsRes vLo ≤ hlsRes vHi ∧
      (hlsRes vLo = hlsRes vHi → vLo.bandwidth ≤ vHi.bandwidth)) :=
  ⟨(claim_C7_highest_resolution_policy ⟨[], "http://e/"⟩).1 rfl,
   (claim_C7_highest_resolution_policy samplePl).2.1 (by decide),
   ((claim_C7_highest_resolution_policy samplePl).2.2 vHi (by decide)).1,
   ((claim_C7_highest_resolution_policy samplePl).2.2 vHi (by decide)).2 vLo
     (by decide)⟩

end VGO

